import Mathlib

/-!
# The QAPI visitor core (`qemu/qapi/qapi-visit-core.c`)

A shallow embedding of the dispatch layer between generated per-type
traversal code and a visitor backend, followed by theorems about numeric
narrowing, enum marshalling, the fallbacks of the optional capabilities, the
list protocol and the exactly-one-of assertions.

Conventions of the embedding.

* A `Visitor *v` is split in two: the table of operation slots together with
  the mode tag (`Visitor σ`), and the backend's private state `σ`, which is
  threaded through every call.  A slot is a pure function from the state and
  the arguments to the new state and the contents the backend leaves in the
  out-parameters.
* Every call the core makes into a slot is appended to a log (`Run.calls`),
  so that "the backend is called once with these arguments" and "the backend
  is not called" are statements about the log.
* `Error **errp` is modelled for a caller that passes an empty slot: a
  function returns the content of that slot at exit, `none` when no error
  was produced.
* A failed `assert` is the distinct outcome `Outcome.abort`; it carries the
  log of the backend calls made before the assertion failed.
* `uintN_t` values are `Nat`, `intN_t` and `int` values are `Int`; the
  conversion performed by an assignment to a narrower type is written out
  (`to_uint`, `to_int`).
* `visit_type_number` and `visit_get_next_type` (a `double` and a `QType`
  out-parameter) are left out; no function below refers to their slots.
-/

namespace QapiVisitCore

/-! ## Data model -/

/-- Modelled from the spec: the mode tag of a visitor.  The declaration of
`VisitorType` (in `qapi/visitor-impl.h`) is not part of the translated file;
the source names `VISITOR_INPUT` (Decode) and `VISITOR_OUTPUT` (Encode), and
the third mode of the spec, Release, is `VISITOR_DEALLOC`. -/
inductive VisitorType where
  | VISITOR_INPUT
  | VISITOR_OUTPUT
  | VISITOR_DEALLOC
deriving DecidableEq, Repr

/-- Modelled from the spec: an `Error` is a structured value carrying a
classification and the strings of its formatted message.  `fmt` is the
message template the error was built from, `args` the strings substituted
into it, in order. -/
structure Error where
  fmt : String
  args : List String
deriving DecidableEq, Repr

/-- Modelled from the spec: the template `QERR_INVALID_PARAMETER` of
`qapi/qmp/qerror.h`, classification "invalid parameter"; it carries one
string. -/
def QERR_INVALID_PARAMETER : String := "invalid parameter"

/-- Modelled from the spec: the template `QERR_INVALID_PARAMETER_VALUE` of
`qapi/qmp/qerror.h`, classification "invalid parameter value"; it carries a
field name and an expected-type token. -/
def QERR_INVALID_PARAMETER_VALUE : String := "invalid parameter value"

/-- Modelled from the spec: `error_setg(errp, fmt, ...)` on an empty slot
leaves there the error built from the template and its arguments. -/
def error_setg (fmt : String) (args : List String) : Option Error :=
  some ⟨fmt, args⟩

/-- Modelled from the spec: `error_propagate(errp, local_err)` on an empty
slot moves `local_err` (an error or `NULL`) into it, unchanged. -/
def error_propagate (local_err : Option Error) : Option Error :=
  local_err

/-- A C pointer to data the core never looks into (`void *`, `QObject *`,
`GenericList *`): `none` is `NULL`, `some a` the address `a`. -/
abbrev Ptr := Option Nat

/-- One call of the core into a backend slot, with the arguments it was
given (for a pointer argument, what it pointed to on entry). -/
inductive Call where
  | start_struct (name : Option String) (obj : Option Ptr) (size : Nat)
  | end_struct
  | start_implicit_struct (obj : Option Ptr) (size : Nat)
  | end_implicit_struct
  | start_list (name : Option String)
  | next_list (list : Ptr) (size : Nat)
  | end_list
  | optional (name : Option String) (present : Bool)
  | type_int64 (name : Option String) (obj : Int)
  | type_uint64 (name : Option String) (obj : Nat)
  | type_size (name : Option String) (obj : Nat)
  | type_bool (name : Option String) (obj : Bool)
  | type_str (name : Option String) (obj : Option String)
  | type_any (name : Option String) (obj : Ptr)
deriving DecidableEq, Repr

/-- The backend capability set and the mode tag (`struct Visitor`).  A slot
takes the backend state and the arguments and returns the new state, what it
leaves in `*obj`, and the error it leaves in the error slot it was given.
The slots that may be unset are `Option`s.  A `char *` is `Option String`
(`none` is `NULL`); a name is `Option String` likewise. -/
structure Visitor (σ : Type) where
  type : VisitorType
  start_struct : σ → Option String → Option Ptr → Nat → σ × Ptr × Option Error
  end_struct : σ → σ × Option Error
  start_implicit_struct : Option (σ → Option Ptr → Nat → σ × Ptr × Option Error)
  end_implicit_struct : Option (σ → σ)
  start_list : σ → Option String → σ × Option Error
  next_list : σ → Ptr → Nat → σ × Ptr × Ptr
  end_list : σ → σ
  optional : Option (σ → Option String → Bool → σ × Bool)
  type_int64 : σ → Option String → Int → σ × Int × Option Error
  type_uint64 : σ → Option String → Nat → σ × Nat × Option Error
  type_size : Option (σ → Option String → Nat → σ × Nat × Option Error)
  type_bool : σ → Option String → Bool → σ × Bool × Option Error
  type_str : σ → Option String → Option String → σ × Option String × Option Error
  type_any : σ → Option String → Ptr → σ × Ptr × Option Error

/-- The backend state together with the log of the calls made into the
backend so far. -/
structure Run (σ : Type) where
  st : σ
  calls : List Call
deriving DecidableEq

/-- What a function of the core leaves behind when it returns: the run, the
content of the caller's `*obj`, and the content of the caller's error slot. -/
structure Ret (σ α : Type) where
  run : Run σ
  obj : α
  errp : Option Error
deriving DecidableEq

/-- Either a failed assertion, with the log of the backend calls made up to
it, or a normal return. -/
inductive Outcome (α : Type) where
  | abort (calls : List Call)
  | ret (a : α)
deriving DecidableEq

/-- The outcome is a failed assertion. -/
def Outcome.aborts {α : Type} : Outcome α → Prop
  | Outcome.abort _ => True
  | Outcome.ret _ => False

/-- The run after one more backend call. -/
def Run.step {σ : Type} (r : Run σ) (c : Call) (st : σ) : Run σ :=
  ⟨st, r.calls ++ [c]⟩

/-- The condition the assertion `!err != !*obj` checks: exactly one of "an
error was produced" and "a value was produced" holds. -/
def exactly_one {α : Type} (err : Option Error) (val : Option α) : Prop :=
  (err ≠ none ∧ val = none) ∨ (err = none ∧ val ≠ none)

/-! ## Integer types -/

/-- Conversion of an unsigned value to `uintN_t` with `N = bits`. -/
def to_uint (bits : Nat) (x : Nat) : Nat := x % 2 ^ bits

/-- Conversion of a signed value to `intN_t` with `N = bits` (reduction
modulo `2 ^ bits` into the signed range). -/
def to_int (bits : Nat) (x : Int) : Int :=
  (x + 2 ^ (bits - 1)) % 2 ^ bits - 2 ^ (bits - 1)

def UINT8_MAX : Nat := 255
def UINT16_MAX : Nat := 65535
def UINT32_MAX : Nat := 4294967295
def INT8_MIN : Int := -128
def INT8_MAX : Int := 127
def INT16_MIN : Int := -32768
def INT16_MAX : Int := 32767
def INT32_MIN : Int := -2147483648
def INT32_MAX : Int := 2147483647

/-! ## Structs, lists, optional fields -/

section Core

variable {σ : Type}

def visit_start_struct (v : Visitor σ) (r : Run σ) (name : Option String)
    (obj : Option Ptr) (size : Nat) : Outcome (Ret σ (Option Ptr)) :=
  let out := v.start_struct r.st name obj size
  let r1 := r.step (Call.start_struct name obj size) out.1
  let err := out.2.2
  match obj with
  | some _ =>
    if v.type = VisitorType.VISITOR_INPUT then
      if (err.isNone) != (out.2.1.isNone) then
        Outcome.ret ⟨r1, some out.2.1, error_propagate err⟩
      else Outcome.abort r1.calls
    else Outcome.ret ⟨r1, some out.2.1, error_propagate err⟩
  | none => Outcome.ret ⟨r1, none, error_propagate err⟩

def visit_end_struct (v : Visitor σ) (r : Run σ) : Ret σ Unit :=
  let out := v.end_struct r.st
  ⟨r.step Call.end_struct out.1, (), out.2⟩

def visit_start_implicit_struct (v : Visitor σ) (r : Run σ) (obj : Option Ptr)
    (size : Nat) : Ret σ (Option Ptr) :=
  match v.start_implicit_struct with
  | some f =>
    let out := f r.st obj size
    ⟨r.step (Call.start_implicit_struct obj size) out.1, obj.map (fun _ => out.2.1), out.2.2⟩
  | none => ⟨r, obj, none⟩

def visit_end_implicit_struct (v : Visitor σ) (r : Run σ) : Run σ :=
  match v.end_implicit_struct with
  | some f => r.step Call.end_implicit_struct (f r.st)
  | none => r

def visit_start_list (v : Visitor σ) (r : Run σ) (name : Option String) : Ret σ Unit :=
  let out := v.start_list r.st name
  ⟨r.step (Call.start_list name) out.1, (), out.2⟩

/-- The function `visit_next_list`; `sizeof_GenericList` stands for
`sizeof(GenericList)`, whose declaration is not part of the translated file.
The returned `obj` is the pair of the new content of `*list` and the link
returned. -/
def visit_next_list (sizeof_GenericList : Nat) (v : Visitor σ) (r : Run σ)
    (list : Option Ptr) (size : Nat) : Outcome (Ret σ (Ptr × Ptr)) :=
  match list with
  | some l =>
    if size ≥ sizeof_GenericList then
      let out := v.next_list r.st l size
      Outcome.ret ⟨r.step (Call.next_list l size) out.1, (out.2.1, out.2.2), none⟩
    else Outcome.abort r.calls
  | none => Outcome.abort r.calls

def visit_end_list (v : Visitor σ) (r : Run σ) : Run σ :=
  r.step Call.end_list (v.end_list r.st)

/-- The function `visit_optional`: `obj` of the result is the content of
`*present` at exit, which is also the value returned. -/
def visit_optional (v : Visitor σ) (r : Run σ) (name : Option String)
    (present : Bool) : Ret σ Bool :=
  match v.optional with
  | some f =>
    let out := f r.st name present
    ⟨r.step (Call.optional name present) out.1, out.2, none⟩
  | none => ⟨r, present, none⟩

/-! ## Fixed-width integers -/

def visit_type_int (v : Visitor σ) (r : Run σ) (name : Option String) (obj : Int) :
    Ret σ Int :=
  let out := v.type_int64 r.st name obj
  ⟨r.step (Call.type_int64 name obj) out.1, out.2.1, out.2.2⟩

def visit_type_uintN (v : Visitor σ) (r : Run σ) (name : Option String) (obj : Nat)
    (max : Nat) (type : String) : Ret σ Nat :=
  let value := obj
  let out := v.type_uint64 r.st name value
  let r1 := r.step (Call.type_uint64 name value) out.1
  let value := out.2.1
  match out.2.2 with
  | some err => ⟨r1, obj, error_propagate (some err)⟩
  | none =>
    if value > max then
      ⟨r1, obj, error_setg QERR_INVALID_PARAMETER_VALUE [name.getD "null", type]⟩
    else ⟨r1, value, none⟩

def visit_type_uint8 (v : Visitor σ) (r : Run σ) (name : Option String) (obj : Nat) :
    Ret σ Nat :=
  let value := obj
  let res := visit_type_uintN v r name value UINT8_MAX "uint8_t"
  ⟨res.run, to_uint 8 res.obj, res.errp⟩

def visit_type_uint16 (v : Visitor σ) (r : Run σ) (name : Option String) (obj : Nat) :
    Ret σ Nat :=
  let value := obj
  let res := visit_type_uintN v r name value UINT16_MAX "uint16_t"
  ⟨res.run, to_uint 16 res.obj, res.errp⟩

def visit_type_uint32 (v : Visitor σ) (r : Run σ) (name : Option String) (obj : Nat) :
    Ret σ Nat :=
  let value := obj
  let res := visit_type_uintN v r name value UINT32_MAX "uint32_t"
  ⟨res.run, to_uint 32 res.obj, res.errp⟩

def visit_type_uint64 (v : Visitor σ) (r : Run σ) (name : Option String) (obj : Nat) :
    Ret σ Nat :=
  let out := v.type_uint64 r.st name obj
  ⟨r.step (Call.type_uint64 name obj) out.1, out.2.1, out.2.2⟩

def visit_type_intN (v : Visitor σ) (r : Run σ) (name : Option String) (obj : Int)
    (min max : Int) (type : String) : Ret σ Int :=
  let value := obj
  let out := v.type_int64 r.st name value
  let r1 := r.step (Call.type_int64 name value) out.1
  let value := out.2.1
  match out.2.2 with
  | some err => ⟨r1, obj, error_propagate (some err)⟩
  | none =>
    if value < min ∨ value > max then
      ⟨r1, obj, error_setg QERR_INVALID_PARAMETER_VALUE [name.getD "null", type]⟩
    else ⟨r1, value, none⟩

def visit_type_int8 (v : Visitor σ) (r : Run σ) (name : Option String) (obj : Int) :
    Ret σ Int :=
  let value := obj
  let res := visit_type_intN v r name value INT8_MIN INT8_MAX "int8_t"
  ⟨res.run, to_int 8 res.obj, res.errp⟩

def visit_type_int16 (v : Visitor σ) (r : Run σ) (name : Option String) (obj : Int) :
    Ret σ Int :=
  let value := obj
  let res := visit_type_intN v r name value INT16_MIN INT16_MAX "int16_t"
  ⟨res.run, to_int 16 res.obj, res.errp⟩

def visit_type_int32 (v : Visitor σ) (r : Run σ) (name : Option String) (obj : Int) :
    Ret σ Int :=
  let value := obj
  let res := visit_type_intN v r name value INT32_MIN INT32_MAX "int32_t"
  ⟨res.run, to_int 32 res.obj, res.errp⟩

def visit_type_int64 (v : Visitor σ) (r : Run σ) (name : Option String) (obj : Int) :
    Ret σ Int :=
  let out := v.type_int64 r.st name obj
  ⟨r.step (Call.type_int64 name obj) out.1, out.2.1, out.2.2⟩

def visit_type_size (v : Visitor σ) (r : Run σ) (name : Option String) (obj : Nat) :
    Ret σ Nat :=
  match v.type_size with
  | some f =>
    let out := f r.st name obj
    ⟨r.step (Call.type_size name obj) out.1, out.2.1, out.2.2⟩
  | none =>
    let out := v.type_uint64 r.st name obj
    ⟨r.step (Call.type_uint64 name obj) out.1, out.2.1, out.2.2⟩

def visit_type_bool (v : Visitor σ) (r : Run σ) (name : Option String) (obj : Bool) :
    Ret σ Bool :=
  let out := v.type_bool r.st name obj
  ⟨r.step (Call.type_bool name obj) out.1, out.2.1, out.2.2⟩

/-! ## Strings and dynamic values -/

/-- The function `visit_type_str`.  `obj` is the `char **`: `none` when the
pointer itself is `NULL`, otherwise the `char *` it points to. -/
def visit_type_str (v : Visitor σ) (r : Run σ) (name : Option String)
    (obj : Option (Option String)) : Outcome (Ret σ (Option String)) :=
  match obj with
  | none => Outcome.abort r.calls
  | some o =>
    let out := v.type_str r.st name o
    let r1 := r.step (Call.type_str name o) out.1
    let err := out.2.2
    if v.type = VisitorType.VISITOR_INPUT then
      if (err.isNone) != (out.2.1.isNone) then
        Outcome.ret ⟨r1, out.2.1, error_propagate err⟩
      else Outcome.abort r1.calls
    else Outcome.ret ⟨r1, out.2.1, error_propagate err⟩

/-- The function `visit_type_any`.  `obj` is the `QObject **`: `none` when
the pointer itself is `NULL`, otherwise the `QObject *` it points to. -/
def visit_type_any (v : Visitor σ) (r : Run σ) (name : Option String)
    (obj : Option Ptr) : Outcome (Ret σ Ptr) :=
  match obj with
  | none => Outcome.abort r.calls
  | some o =>
    let out := v.type_any r.st name o
    let r1 := r.step (Call.type_any name o) out.1
    let err := out.2.2
    if v.type = VisitorType.VISITOR_INPUT then
      if (err.isNone) != (out.2.1.isNone) then
        Outcome.ret ⟨r1, out.2.1, error_propagate err⟩
      else Outcome.abort r1.calls
    else Outcome.ret ⟨r1, out.2.1, error_propagate err⟩

/-! ## Enums

A name table `const char *const strings[]` is the list of its entries before
the terminating `NULL`. -/

/-- The function `output_type_enum`.  The counting loop leaves `i` one past
the number of names; `int` arithmetic is exact for a table that fits in
memory. -/
def output_type_enum (v : Visitor σ) (r : Run σ) (name : Option String) (obj : Int)
    (strings : List String) : Outcome (Ret σ Int) :=
  let i : Int := (strings.length : Int) + 1
  let value := obj
  if value < 0 ∨ value ≥ i - 1 then
    Outcome.ret ⟨r, obj, error_setg QERR_INVALID_PARAMETER [name.getD "null"]⟩
  else
    let enum_str := strings.get? value.toNat
    match visit_type_str v r name (some enum_str) with
    | Outcome.abort calls => Outcome.abort calls
    | Outcome.ret res => Outcome.ret ⟨res.run, obj, res.errp⟩

/-- The scanning loop of `input_type_enum`: `rest` is the part of the table
from position `value` on; the result is the value of `value` when the loop
ends, the first position at or after the start whose name equals `enum_str`,
or the position of the terminating `NULL`. -/
def input_type_enum_scan (enum_str : String) : List String → Nat → Nat
  | [], value => value
  | s :: rest, value =>
    if s = enum_str then value else input_type_enum_scan enum_str rest (value + 1)

/-- The function `input_type_enum`.  The local `enum_str` is not
initialised before it is handed to `visit_type_str`; its content at that
point is the argument `enum_str`.  A `NULL` string after a call without
error (which the assertion of `visit_type_str` excludes in Decode mode)
would be dereferenced by `strcmp`, and is an abort. -/
def input_type_enum (v : Visitor σ) (r : Run σ) (name : Option String) (obj : Int)
    (strings : List String) (enum_str : Option String) : Outcome (Ret σ Int) :=
  match visit_type_str v r name (some enum_str) with
  | Outcome.abort calls => Outcome.abort calls
  | Outcome.ret res =>
    match res.errp with
    | some local_err => Outcome.ret ⟨res.run, obj, error_propagate (some local_err)⟩
    | none =>
      match res.obj with
      | none => Outcome.abort res.run.calls
      | some s =>
        let value := input_type_enum_scan s strings 0
        if strings.get? value = none then
          Outcome.ret ⟨res.run, obj, error_setg QERR_INVALID_PARAMETER [s]⟩
        else Outcome.ret ⟨res.run, to_int 32 (value : Int), none⟩

/-- The function `visit_type_enum`.  `strings` is `none` when the table
pointer is `NULL`; `enum_str` is the content of the uninitialised local of
`input_type_enum`. -/
def visit_type_enum (v : Visitor σ) (r : Run σ) (name : Option String) (obj : Int)
    (strings : Option (List String)) (enum_str : Option String) : Outcome (Ret σ Int) :=
  match strings with
  | none => Outcome.abort r.calls
  | some strings =>
    if v.type = VisitorType.VISITOR_INPUT then
      input_type_enum v r name obj strings enum_str
    else if v.type = VisitorType.VISITOR_OUTPUT then
      output_type_enum v r name obj strings
    else Outcome.ret ⟨r, obj, none⟩

/-! ## The narrow widths as a family -/

/-- The unsigned widths narrower than 64 bits. -/
inductive UWidth where
  | uint8
  | uint16
  | uint32
deriving DecidableEq, Repr

/-- The signed widths narrower than 64 bits. -/
inductive SWidth where
  | int8
  | int16
  | int32
deriving DecidableEq, Repr

def UWidth.bits : UWidth → Nat
  | UWidth.uint8 => 8
  | UWidth.uint16 => 16
  | UWidth.uint32 => 32

def SWidth.bits : SWidth → Nat
  | SWidth.int8 => 8
  | SWidth.int16 => 16
  | SWidth.int32 => 32

/-- The canonical token of an unsigned width, as the accessor passes it to
`visit_type_uintN`. -/
def UWidth.token : UWidth → String
  | UWidth.uint8 => "uint8_t"
  | UWidth.uint16 => "uint16_t"
  | UWidth.uint32 => "uint32_t"

/-- The canonical token of a signed width, as the accessor passes it to
`visit_type_intN`. -/
def SWidth.token : SWidth → String
  | SWidth.int8 => "int8_t"
  | SWidth.int16 => "int16_t"
  | SWidth.int32 => "int32_t"

/-- The values of an unsigned width: `0 ≤ x ≤ 2^w - 1`. -/
def UWidth.range (W : UWidth) (x : Nat) : Prop := x ≤ 2 ^ W.bits - 1

/-- The values of a signed width: `-2^(w-1) ≤ x ≤ 2^(w-1) - 1`. -/
def SWidth.range (W : SWidth) (x : Int) : Prop :=
  -(2 : Int) ^ (W.bits - 1) ≤ x ∧ x ≤ (2 : Int) ^ (W.bits - 1) - 1

instance (W : UWidth) (x : Nat) : Decidable (W.range x) := by
  unfold UWidth.range; infer_instance

instance (W : SWidth) (x : Int) : Decidable (W.range x) := by
  unfold SWidth.range; infer_instance

/-- The accessor of an unsigned narrow width. -/
def visit_type_uintW (W : UWidth) (v : Visitor σ) (r : Run σ) (name : Option String)
    (obj : Nat) : Ret σ Nat :=
  match W with
  | UWidth.uint8 => visit_type_uint8 v r name obj
  | UWidth.uint16 => visit_type_uint16 v r name obj
  | UWidth.uint32 => visit_type_uint32 v r name obj

/-- The accessor of a signed narrow width. -/
def visit_type_intW (W : SWidth) (v : Visitor σ) (r : Run σ) (name : Option String)
    (obj : Int) : Ret σ Int :=
  match W with
  | SWidth.int8 => visit_type_int8 v r name obj
  | SWidth.int16 => visit_type_int16 v r name obj
  | SWidth.int32 => visit_type_int32 v r name obj

/-! ## List traversals -/

/-- Modelled from the spec: a list traversal as the caller runs it, a
sequence of `visit_next_list` calls with one node size; `slots` lists what
the link slot holds at each call.  The result is the run at the end and the
links the caller was given, in order. -/
def traversal_links (sizeof_GenericList : Nat) (v : Visitor σ) (size : Nat) :
    Run σ → List Ptr → Outcome (Run σ × List Ptr)
  | r, [] => Outcome.ret (r, [])
  | r, l :: slots =>
    match visit_next_list sizeof_GenericList v r (some l) size with
    | Outcome.abort calls => Outcome.abort calls
    | Outcome.ret res =>
      match traversal_links sizeof_GenericList v size res.run slots with
      | Outcome.abort calls => Outcome.abort calls
      | Outcome.ret rest => Outcome.ret (rest.1, res.obj.2 :: rest.2)

/-- The backend state at the end and the links the `next_list` slot of the
backend yields when it is applied to the same slots directly, in order. -/
def backend_links (v : Visitor σ) (size : Nat) : σ → List Ptr → σ × List Ptr
  | st, [] => (st, [])
  | st, l :: slots =>
    let out := v.next_list st l size
    let rest := backend_links v size out.1 slots
    (rest.1, out.2.2 :: rest.2)

/-! ## Sample backends -/

/-- A backend without state and without optional capabilities that answers
every integer primitive with the wide value `wide`, every string primitive
with `str`, and every fallible primitive with the error `err`. -/
def fixed_visitor (type : VisitorType) (wide : Int) (str : Option String)
    (err : Option Error) : Visitor Unit :=
  { type := type
    start_struct := fun _ _ _ _ => ((), none, err)
    end_struct := fun _ => ((), err)
    start_implicit_struct := none
    end_implicit_struct := none
    start_list := fun _ _ => ((), err)
    next_list := fun _ l _ => ((), l, none)
    end_list := fun _ => ()
    optional := none
    type_int64 := fun _ _ _ => ((), wide, err)
    type_uint64 := fun _ _ _ => ((), wide.toNat, err)
    type_size := none
    type_bool := fun _ _ b => ((), b, err)
    type_str := fun _ _ _ => ((), str, err)
    type_any := fun _ _ _ => ((), none, err) }

/-- An Encode backend that records: its state is the last wide value an
integer primitive was handed; the primitives leave the value unchanged and
report no error. -/
def recording_visitor : Visitor (Option Int) :=
  { type := VisitorType.VISITOR_OUTPUT
    start_struct := fun s _ _ _ => (s, none, none)
    end_struct := fun s => (s, none)
    start_implicit_struct := none
    end_implicit_struct := none
    start_list := fun s _ => (s, none)
    next_list := fun s l _ => (s, l, none)
    end_list := fun s => s
    optional := none
    type_int64 := fun _ _ x => (some x, x, none)
    type_uint64 := fun _ _ x => (some (x : Int), x, none)
    type_size := none
    type_bool := fun s _ b => (s, b, none)
    type_str := fun s _ o => (s, o, none)
    type_any := fun s _ o => (s, o, none) }

/-- The run of a stateless backend before any call. -/
def fresh : Run Unit := ⟨(), []⟩

end Core


/-! # Theorems -/

section Narrowing

variable {σ : Type}

/-! ## Conversions that lose nothing -/

theorem to_uint_of_le (bits x : Nat) (h : x ≤ 2 ^ bits - 1) : to_uint bits x = x := by
  have hpos : 0 < 2 ^ bits := Nat.two_pow_pos bits
  exact Nat.mod_eq_of_lt (by omega)

theorem to_int_of_range (bits : Nat) (x : Int) (hb : 0 < bits)
    (hlo : -(2 : Int) ^ (bits - 1) ≤ x) (hhi : x ≤ (2 : Int) ^ (bits - 1) - 1) :
    to_int bits x = x := by
  unfold to_int
  have hsplit : (2 : Int) ^ bits = 2 * 2 ^ (bits - 1) := by
    obtain ⟨k, rfl⟩ : ∃ k, bits = k + 1 := ⟨bits - 1, by omega⟩
    simp [pow_succ, mul_comm]
  have hmod : (x + 2 ^ (bits - 1)) % 2 ^ bits = x + 2 ^ (bits - 1) := by
    apply Int.emod_eq_of_lt <;> omega
  rw [hmod]; omega

theorem uwidth_cast (W : UWidth) (x : Nat) (h : W.range x) : to_uint W.bits x = x :=
  to_uint_of_le W.bits x h

theorem swidth_cast (W : SWidth) (x : Int) (h : W.range x) : to_int W.bits x = x :=
  to_int_of_range W.bits x (by cases W <;> decide) h.1 h.2

/-! ## The three exits of `visit_type_uintN` and `visit_type_intN` -/

theorem visit_type_uintN_error (v : Visitor σ) (r : Run σ) (name : Option String)
    (obj max : Nat) (type : String) (st : σ) (wide : Nat) (e : Error)
    (h : v.type_uint64 r.st name obj = (st, wide, some e)) :
    visit_type_uintN v r name obj max type
      = ⟨r.step (Call.type_uint64 name obj) st, obj, some e⟩ := by
  simp [visit_type_uintN, h, error_propagate]

theorem visit_type_uintN_above (v : Visitor σ) (r : Run σ) (name : Option String)
    (obj max : Nat) (type : String) (st : σ) (wide : Nat)
    (h : v.type_uint64 r.st name obj = (st, wide, none)) (hw : wide > max) :
    visit_type_uintN v r name obj max type
      = ⟨r.step (Call.type_uint64 name obj) st, obj,
          some ⟨QERR_INVALID_PARAMETER_VALUE, [name.getD "null", type]⟩⟩ := by
  simp [visit_type_uintN, h, error_setg, hw]

theorem visit_type_uintN_within (v : Visitor σ) (r : Run σ) (name : Option String)
    (obj max : Nat) (type : String) (st : σ) (wide : Nat)
    (h : v.type_uint64 r.st name obj = (st, wide, none)) (hw : wide ≤ max) :
    visit_type_uintN v r name obj max type
      = ⟨r.step (Call.type_uint64 name obj) st, wide, none⟩ := by
  simp [visit_type_uintN, h, Nat.not_lt.mpr hw]

theorem visit_type_intN_error (v : Visitor σ) (r : Run σ) (name : Option String)
    (obj min max : Int) (type : String) (st : σ) (wide : Int) (e : Error)
    (h : v.type_int64 r.st name obj = (st, wide, some e)) :
    visit_type_intN v r name obj min max type
      = ⟨r.step (Call.type_int64 name obj) st, obj, some e⟩ := by
  simp [visit_type_intN, h, error_propagate]

theorem visit_type_intN_outside (v : Visitor σ) (r : Run σ) (name : Option String)
    (obj min max : Int) (type : String) (st : σ) (wide : Int)
    (h : v.type_int64 r.st name obj = (st, wide, none)) (hw : wide < min ∨ wide > max) :
    visit_type_intN v r name obj min max type
      = ⟨r.step (Call.type_int64 name obj) st, obj,
          some ⟨QERR_INVALID_PARAMETER_VALUE, [name.getD "null", type]⟩⟩ := by
  simp only [visit_type_intN, h, error_setg]
  rw [if_pos hw]

theorem visit_type_intN_within (v : Visitor σ) (r : Run σ) (name : Option String)
    (obj min max : Int) (type : String) (st : σ) (wide : Int)
    (h : v.type_int64 r.st name obj = (st, wide, none)) (hlo : min ≤ wide) (hhi : wide ≤ max) :
    visit_type_intN v r name obj min max type
      = ⟨r.step (Call.type_int64 name obj) st, wide, none⟩ := by
  simp only [visit_type_intN, h]
  rw [if_neg (by omega)]

/-- Whatever the backend answers, a narrow unsigned accessor calls
`type_uint64` once, with the field name and the zero-extension of `*obj`. -/
theorem visit_type_uintW_calls (W : UWidth) (v : Visitor σ) (r : Run σ)
    (name : Option String) (obj : Nat) :
    (visit_type_uintW W v r name obj).run.calls = r.calls ++ [Call.type_uint64 name obj] := by
  cases W <;>
    simp only [visit_type_uintW, visit_type_uint8, visit_type_uint16, visit_type_uint32,
      visit_type_uintN] <;>
    split <;> try split
  all_goals rfl

/-- Whatever the backend answers, a narrow signed accessor calls `type_int64`
once, with the field name and the sign-extension of `*obj`. -/
theorem visit_type_intW_calls (W : SWidth) (v : Visitor σ) (r : Run σ)
    (name : Option String) (obj : Int) :
    (visit_type_intW W v r name obj).run.calls = r.calls ++ [Call.type_int64 name obj] := by
  cases W <;>
    simp only [visit_type_intW, visit_type_int8, visit_type_int16, visit_type_int32,
      visit_type_intN] <;>
    split <;> try split
  all_goals rfl

/-- Whatever the backend answers, the run a narrow unsigned accessor leaves is
the run after applying the `type_uint64` slot once to the state it was
entered with, the field name and the zero-extension of `*obj`. -/
theorem visit_type_uintW_run (W : UWidth) (v : Visitor σ) (r : Run σ)
    (name : Option String) (obj : Nat) :
    (visit_type_uintW W v r name obj).run
      = r.step (Call.type_uint64 name obj) (v.type_uint64 r.st name obj).1 := by
  cases W <;>
    simp only [visit_type_uintW, visit_type_uint8, visit_type_uint16, visit_type_uint32,
      visit_type_uintN] <;>
    split <;> try split
  all_goals rfl

/-- Whatever the backend answers, the run a narrow signed accessor leaves is
the run after applying the `type_int64` slot once to the state it was entered
with, the field name and the sign-extension of `*obj`. -/
theorem visit_type_intW_run (W : SWidth) (v : Visitor σ) (r : Run σ)
    (name : Option String) (obj : Int) :
    (visit_type_intW W v r name obj).run
      = r.step (Call.type_int64 name obj) (v.type_int64 r.st name obj).1 := by
  cases W <;>
    simp only [visit_type_intW, visit_type_int8, visit_type_int16, visit_type_int32,
      visit_type_intN] <;>
    split <;> try split
  all_goals rfl

/-- A narrow unsigned accessor on a backend that reports an error. -/
theorem visit_type_uintW_error (W : UWidth) (v : Visitor σ) (r : Run σ)
    (name : Option String) (obj wide : Nat) (st : σ) (e : Error)
    (h : v.type_uint64 r.st name obj = (st, wide, some e)) :
    visit_type_uintW W v r name obj
      = ⟨r.step (Call.type_uint64 name obj) st, to_uint W.bits obj, some e⟩ := by
  cases W <;>
    simp only [visit_type_uintW, visit_type_uint8, visit_type_uint16, visit_type_uint32,
      visit_type_uintN_error v r name obj _ _ st wide e h, UWidth.bits]

/-- A narrow unsigned accessor on a backend that hands back a value above the
bound. -/
theorem visit_type_uintW_above (W : UWidth) (v : Visitor σ) (r : Run σ)
    (name : Option String) (obj wide : Nat) (st : σ)
    (h : v.type_uint64 r.st name obj = (st, wide, none)) (hw : ¬ W.range wide) :
    visit_type_uintW W v r name obj
      = ⟨r.step (Call.type_uint64 name obj) st, to_uint W.bits obj,
          some ⟨QERR_INVALID_PARAMETER_VALUE, [name.getD "null", W.token]⟩⟩ := by
  cases W <;>
    simp only [UWidth.range, UWidth.bits, Nat.not_le] at hw <;>
    simp only [visit_type_uintW, visit_type_uint8, visit_type_uint16, visit_type_uint32] <;>
    rw [visit_type_uintN_above v r name obj _ _ st wide h
      (by simp only [UINT8_MAX, UINT16_MAX, UINT32_MAX]; omega)] <;>
    rfl

/-- A narrow unsigned accessor on a backend that hands back a value within
the bound. -/
theorem visit_type_uintW_within (W : UWidth) (v : Visitor σ) (r : Run σ)
    (name : Option String) (obj wide : Nat) (st : σ)
    (h : v.type_uint64 r.st name obj = (st, wide, none)) (hw : W.range wide) :
    visit_type_uintW W v r name obj
      = ⟨r.step (Call.type_uint64 name obj) st, to_uint W.bits wide, none⟩ := by
  cases W <;>
    simp only [UWidth.range, UWidth.bits] at hw <;>
    simp only [visit_type_uintW, visit_type_uint8, visit_type_uint16, visit_type_uint32] <;>
    rw [visit_type_uintN_within v r name obj _ _ st wide h
      (by simp only [UINT8_MAX, UINT16_MAX, UINT32_MAX]; omega)] <;>
    rfl

/-- A narrow signed accessor on a backend that reports an error. -/
theorem visit_type_intW_error (W : SWidth) (v : Visitor σ) (r : Run σ)
    (name : Option String) (obj wide : Int) (st : σ) (e : Error)
    (h : v.type_int64 r.st name obj = (st, wide, some e)) :
    visit_type_intW W v r name obj
      = ⟨r.step (Call.type_int64 name obj) st, to_int W.bits obj, some e⟩ := by
  cases W <;>
    simp only [visit_type_intW, visit_type_int8, visit_type_int16, visit_type_int32,
      visit_type_intN_error v r name obj _ _ _ st wide e h, SWidth.bits]

/-- A narrow signed accessor on a backend that hands back a value outside the
bounds. -/
theorem visit_type_intW_outside (W : SWidth) (v : Visitor σ) (r : Run σ)
    (name : Option String) (obj wide : Int) (st : σ)
    (h : v.type_int64 r.st name obj = (st, wide, none)) (hw : ¬ W.range wide) :
    visit_type_intW W v r name obj
      = ⟨r.step (Call.type_int64 name obj) st, to_int W.bits obj,
          some ⟨QERR_INVALID_PARAMETER_VALUE, [name.getD "null", W.token]⟩⟩ := by
  cases W <;>
    simp only [SWidth.range, SWidth.bits, not_and_or, not_le] at hw <;>
    simp only [visit_type_intW, visit_type_int8, visit_type_int16, visit_type_int32] <;>
    rw [visit_type_intN_outside v r name obj _ _ _ st wide h
      (by simp only [INT8_MIN, INT8_MAX, INT16_MIN, INT16_MAX, INT32_MIN, INT32_MAX]; omega)] <;>
    rfl

/-- A narrow signed accessor on a backend that hands back a value within the
bounds. -/
theorem visit_type_intW_within (W : SWidth) (v : Visitor σ) (r : Run σ)
    (name : Option String) (obj wide : Int) (st : σ)
    (h : v.type_int64 r.st name obj = (st, wide, none)) (hw : W.range wide) :
    visit_type_intW W v r name obj
      = ⟨r.step (Call.type_int64 name obj) st, to_int W.bits wide, none⟩ := by
  obtain ⟨hlo, hhi⟩ := hw
  cases W <;>
    simp only [SWidth.bits] at hlo hhi <;>
    simp only [visit_type_intW, visit_type_int8, visit_type_int16, visit_type_int32] <;>
    rw [visit_type_intN_within v r name obj _ _ _ st wide h
      (by simp only [INT8_MIN, INT16_MIN, INT32_MIN]; omega)
      (by simp only [INT8_MAX, INT16_MAX, INT32_MAX]; omega)] <;>
    rfl

end Narrowing

section NarrowingClaims

variable {σ : Type}

/-- C1: for each narrow width `W`, each field name and each backend whose
64-bit primitive reports no error and hands back a wide value outside
`range(W)`, the accessor of `W` produces the error "invalid parameter value"
carrying the field name (`"null"` when absent) and the canonical token of
`W`, and the destination holds the same value after the call as before. -/
theorem narrow_out_of_range_rejected (v : Visitor σ) (r : Run σ) (name : Option String) :
    (∀ (W : UWidth) (obj wide : Nat) (st : σ), W.range obj →
      v.type_uint64 r.st name obj = (st, wide, none) → ¬ W.range wide →
      (visit_type_uintW W v r name obj).errp
          = some ⟨QERR_INVALID_PARAMETER_VALUE, [name.getD "null", W.token]⟩
        ∧ (visit_type_uintW W v r name obj).obj = obj) ∧
    (∀ (W : SWidth) (obj wide : Int) (st : σ), W.range obj →
      v.type_int64 r.st name obj = (st, wide, none) → ¬ W.range wide →
      (visit_type_intW W v r name obj).errp
          = some ⟨QERR_INVALID_PARAMETER_VALUE, [name.getD "null", W.token]⟩
        ∧ (visit_type_intW W v r name obj).obj = obj) := by
  constructor
  · intro W obj wide st hobj hcall hwide
    rw [visit_type_uintW_above W v r name obj wide st hcall hwide]
    exact ⟨rfl, uwidth_cast W obj hobj⟩
  · intro W obj wide st hobj hcall hwide
    rw [visit_type_intW_outside W v r name obj wide st hcall hwide]
    exact ⟨rfl, swidth_cast W obj hobj⟩

/-- Witness of C1: an unsigned-8 field `count` holding 7, a Decode backend
handing back 300: the error names `count` and `uint8_t`, the field still
holds 7. -/
theorem narrow_out_of_range_rejected_uint8_300 :
    (visit_type_uintW UWidth.uint8 (fixed_visitor VisitorType.VISITOR_INPUT 300 none none)
        fresh (some "count") 7).errp
        = some ⟨QERR_INVALID_PARAMETER_VALUE, ["count", "uint8_t"]⟩
      ∧ (visit_type_uintW UWidth.uint8 (fixed_visitor VisitorType.VISITOR_INPUT 300 none none)
        fresh (some "count") 7).obj = 7 :=
  (narrow_out_of_range_rejected (fixed_visitor VisitorType.VISITOR_INPUT 300 none none)
    fresh (some "count")).1 UWidth.uint8 7 300 () (by decide) rfl (by decide)

/-- C2: for each narrow width `W` and each backend whose 64-bit primitive
reports no error and hands back a wide value `wide` inside `range(W)`, the
accessor of `W` produces no error and the destination afterwards equals
`wide`; the conversion from the 64-bit temporary to `W` loses nothing. -/
theorem narrow_in_range_stored (v : Visitor σ) (r : Run σ) (name : Option String) :
    (∀ (W : UWidth) (obj wide : Nat) (st : σ),
      v.type_uint64 r.st name obj = (st, wide, none) → W.range wide →
      (visit_type_uintW W v r name obj).errp = none
        ∧ (visit_type_uintW W v r name obj).obj = wide
        ∧ to_uint W.bits wide = wide) ∧
    (∀ (W : SWidth) (obj wide : Int) (st : σ),
      v.type_int64 r.st name obj = (st, wide, none) → W.range wide →
      (visit_type_intW W v r name obj).errp = none
        ∧ (visit_type_intW W v r name obj).obj = wide
        ∧ to_int W.bits wide = wide) := by
  constructor
  · intro W obj wide st hcall hwide
    rw [visit_type_uintW_within W v r name obj wide st hcall hwide]
    exact ⟨rfl, uwidth_cast W wide hwide, uwidth_cast W wide hwide⟩
  · intro W obj wide st hcall hwide
    rw [visit_type_intW_within W v r name obj wide st hcall hwide]
    exact ⟨rfl, swidth_cast W wide hwide, swidth_cast W wide hwide⟩

/-- Witness of C2: an unsigned-8 field holding 7, a Decode backend handing
back 200: no error, the field holds 200. -/
theorem narrow_in_range_stored_uint8_200 :
    (visit_type_uintW UWidth.uint8 (fixed_visitor VisitorType.VISITOR_INPUT 200 none none)
        fresh (some "count") 7).errp = none
      ∧ (visit_type_uintW UWidth.uint8 (fixed_visitor VisitorType.VISITOR_INPUT 200 none none)
        fresh (some "count") 7).obj = 200
      ∧ to_uint UWidth.uint8.bits 200 = 200 :=
  (narrow_in_range_stored (fixed_visitor VisitorType.VISITOR_INPUT 200 none none)
    fresh (some "count")).1 UWidth.uint8 7 200 () rfl (by decide)

/-- C8: for each narrow width `W` and each value `x` of type `W` in the
caller's location, the accessor of `W` in Encode mode hands the 64-bit
primitive exactly the widening of `x`, in one call: the run it leaves is the
run after applying the primitive of the backend to the entry state, the
field name and `x`.  When the primitive leaves the wide value unchanged and
reports no error, the accessor produces no error and the location still
holds `x`. -/
theorem narrow_encode_widens (v : Visitor σ) (r : Run σ) (name : Option String)
    (_hmode : v.type = VisitorType.VISITOR_OUTPUT) :
    (∀ (W : UWidth) (x : Nat), W.range x →
      (visit_type_uintW W v r name x).run
          = r.step (Call.type_uint64 name x) (v.type_uint64 r.st name x).1
        ∧ (visit_type_uintW W v r name x).run.calls = r.calls ++ [Call.type_uint64 name x]
        ∧ ∀ (st : σ), v.type_uint64 r.st name x = (st, x, none) →
          visit_type_uintW W v r name x = ⟨r.step (Call.type_uint64 name x) st, x, none⟩
            ∧ (visit_type_uintW W v r name x).errp = none
            ∧ (visit_type_uintW W v r name x).obj = x) ∧
    (∀ (W : SWidth) (x : Int), W.range x →
      (visit_type_intW W v r name x).run
          = r.step (Call.type_int64 name x) (v.type_int64 r.st name x).1
        ∧ (visit_type_intW W v r name x).run.calls = r.calls ++ [Call.type_int64 name x]
        ∧ ∀ (st : σ), v.type_int64 r.st name x = (st, x, none) →
          visit_type_intW W v r name x = ⟨r.step (Call.type_int64 name x) st, x, none⟩
            ∧ (visit_type_intW W v r name x).errp = none
            ∧ (visit_type_intW W v r name x).obj = x) := by
  constructor
  · intro W x hx
    refine ⟨visit_type_uintW_run W v r name x, visit_type_uintW_calls W v r name x, ?_⟩
    intro st hcall
    rw [visit_type_uintW_within W v r name x x st hcall hx, uwidth_cast W x hx]
    exact ⟨rfl, rfl, rfl⟩
  · intro W x hx
    refine ⟨visit_type_intW_run W v r name x, visit_type_intW_calls W v r name x, ?_⟩
    intro st hcall
    rw [visit_type_intW_within W v r name x x st hcall hx, swidth_cast W x hx]
    exact ⟨rfl, rfl, rfl⟩

/-- Witness of C8: the signed-8 value -128 through the recording backend:
the backend has recorded -128, the log holds the one call, no error is
produced and the location still holds -128. -/
theorem narrow_encode_widens_int8 :
    (visit_type_intW SWidth.int8 recording_visitor ⟨none, []⟩ none (-128)).run
        = ⟨some (-128), [Call.type_int64 none (-128)]⟩
      ∧ visit_type_intW SWidth.int8 recording_visitor ⟨none, []⟩ none (-128)
        = ⟨⟨some (-128), [Call.type_int64 none (-128)]⟩, -128, none⟩
      ∧ (visit_type_intW SWidth.int8 recording_visitor ⟨none, []⟩ none (-128)).errp = none
      ∧ (visit_type_intW SWidth.int8 recording_visitor ⟨none, []⟩ none (-128)).obj = -128 :=
  have h := (narrow_encode_widens recording_visitor ⟨none, []⟩ none rfl).2
    SWidth.int8 (-128) (by decide)
  ⟨h.1, h.2.2 (some (-128)) rfl⟩

end NarrowingClaims

section Strings

variable {σ : Type}

/-- In Decode mode `visit_type_str` returns normally when the backend leaves
a string and no error. -/
theorem visit_type_str_decoded (v : Visitor σ) (r : Run σ) (name : Option String)
    (o : Option String) (st : σ) (s : String)
    (hmode : v.type = VisitorType.VISITOR_INPUT)
    (h : v.type_str r.st name o = (st, some s, none)) :
    visit_type_str v r name (some o)
      = Outcome.ret ⟨r.step (Call.type_str name o) st, some s, none⟩ := by
  simp [visit_type_str, hmode, h, error_propagate]

/-- In Decode mode `visit_type_str` returns normally when the backend leaves
an error and no string. -/
theorem visit_type_str_failed (v : Visitor σ) (r : Run σ) (name : Option String)
    (o : Option String) (st : σ) (e : Error)
    (hmode : v.type = VisitorType.VISITOR_INPUT)
    (h : v.type_str r.st name o = (st, none, some e)) :
    visit_type_str v r name (some o)
      = Outcome.ret ⟨r.step (Call.type_str name o) st, none, some e⟩ := by
  simp [visit_type_str, hmode, h, error_propagate]

/-- Outside Decode mode `visit_type_str` forwards what the backend leaves. -/
theorem visit_type_str_forward (v : Visitor σ) (r : Run σ) (name : Option String)
    (o : Option String) (hmode : v.type ≠ VisitorType.VISITOR_INPUT) :
    visit_type_str v r name (some o)
      = Outcome.ret ⟨r.step (Call.type_str name o) (v.type_str r.st name o).1,
          (v.type_str r.st name o).2.1, (v.type_str r.st name o).2.2⟩ := by
  simp [visit_type_str, hmode, error_propagate]

/-- Outside Decode mode `visit_type_any` forwards what the backend leaves. -/
theorem visit_type_any_forward (v : Visitor σ) (r : Run σ) (name : Option String)
    (o : Ptr) (hmode : v.type ≠ VisitorType.VISITOR_INPUT) :
    visit_type_any v r name (some o)
      = Outcome.ret ⟨r.step (Call.type_any name o) (v.type_any r.st name o).1,
          (v.type_any r.st name o).2.1, (v.type_any r.st name o).2.2⟩ := by
  simp [visit_type_any, hmode, error_propagate]

/-- The assertion `!err != !*obj` passes exactly when one of the two is
set and the other is not. -/
theorem assertion_iff {α : Type} (err : Option Error) (val : Option α) :
    ((err.isNone != val.isNone) = true)
      ↔ exactly_one err val := by
  cases err <;> cases val <;> simp [exactly_one]

end Strings

section EnumScan

/-- When no name of the rest of the table equals `enum_str`, the loop stops
at the terminating `NULL`. -/
theorem input_type_enum_scan_absent (enum_str : String) (rest : List String) (value : Nat)
    (h : ∀ x ∈ rest, x ≠ enum_str) :
    input_type_enum_scan enum_str rest value = value + rest.length := by
  induction rest generalizing value with
  | nil => rfl
  | cons s rest ih =>
    have hs : s ≠ enum_str := h s (List.mem_cons_self s rest)
    simp only [input_type_enum_scan, if_neg hs, List.length_cons]
    rw [ih (value + 1) (fun x hx => h x (List.mem_cons_of_mem s hx))]
    omega

/-- When position `i` of the rest of the table holds `enum_str` and no
earlier position does, the loop stops `i` positions further. -/
theorem input_type_enum_scan_first (enum_str : String) (rest : List String) (value i : Nat)
    (hi : rest.get? i = some enum_str)
    (hfirst : ∀ j, j < i → rest.get? j ≠ some enum_str) :
    input_type_enum_scan enum_str rest value = value + i := by
  induction rest generalizing value i with
  | nil => simp at hi
  | cons s rest ih =>
    cases i with
    | zero =>
      have hs : s = enum_str := by simpa using hi
      simp [input_type_enum_scan, hs]
    | succ i =>
      have hs : s ≠ enum_str := by
        intro hs
        exact hfirst 0 (Nat.succ_pos i) (by simp [hs])
      simp only [input_type_enum_scan, if_neg hs]
      rw [ih (value + 1) i (by simpa using hi)
        (fun j hj => by simpa using hfirst (j + 1) (Nat.succ_lt_succ hj))]
      omega

end EnumScan

section EnumClaims

variable {σ : Type}

/-- C4, as amended: for every name table, every position `i` of it that an
`int` can hold, and every Decode backend whose `type_str` succeeds with the
name at `i`, when no earlier position holds that name `visit_type_enum`
produces no error and sets the index to `i`. -/
theorem enum_decode_first_position (v : Visitor σ) (r : Run σ) (name : Option String)
    (obj : Int) (strings : List String) (enum_str : Option String) (i : Nat) (s : String)
    (st : σ) (hmode : v.type = VisitorType.VISITOR_INPUT)
    (hi : strings.get? i = some s) (hint : (i : Int) ≤ INT32_MAX)
    (hfirst : ∀ j, j < i → strings.get? j ≠ some s)
    (hcall : v.type_str r.st name enum_str = (st, some s, none)) :
    visit_type_enum v r name obj (some strings) enum_str
      = Outcome.ret ⟨r.step (Call.type_str name enum_str) st, (i : Int), none⟩ := by
  have hscan := input_type_enum_scan_first s strings 0 i hi hfirst
  rw [Nat.zero_add] at hscan
  have hcast : to_int 32 (i : Int) = i :=
    to_int_of_range 32 i (by decide) (by norm_num; omega)
      (by simp only [INT32_MAX] at hint; norm_num; omega)
  simp only [visit_type_enum, hmode, if_true, input_type_enum,
    visit_type_str_decoded v r name enum_str st s hmode hcall, hscan, hi, hcast]
  simp

/-- Witness of C4 as amended: the table `["auto", "manual"]` and the input
`"manual"` give index 1. -/
theorem enum_decode_first_position_manual :
    visit_type_enum (fixed_visitor VisitorType.VISITOR_INPUT 0 (some "manual") none) fresh
        (some "mode") 0 (some ["auto", "manual"]) none
      = Outcome.ret ⟨fresh.step (Call.type_str (some "mode") none) (), ((1 : Nat) : Int), none⟩ :=
  enum_decode_first_position (fixed_visitor VisitorType.VISITOR_INPUT 0 (some "manual") none)
    fresh (some "mode") 0 ["auto", "manual"] none 1 "manual" () rfl rfl (by decide)
    (by decide) rfl

/-- Counterexample to C4 as stated: in the table `["on", "on"]` position 1
holds `"on"`, and decoding `"on"` does not set the index to 1 (it sets it to
0). -/
theorem enum_decode_repeated_name :
    (["on", "on"].get? 1 = some "on") ∧
    visit_type_enum (fixed_visitor VisitorType.VISITOR_INPUT 0 (some "on") none) fresh
        (some "mode") 7 (some ["on", "on"]) none
      = Outcome.ret ⟨fresh.step (Call.type_str (some "mode") none) (), 0, none⟩ ∧
    visit_type_enum (fixed_visitor VisitorType.VISITOR_INPUT 0 (some "on") none) fresh
        (some "mode") 7 (some ["on", "on"]) none
      ≠ Outcome.ret ⟨fresh.step (Call.type_str (some "mode") none) (), 1, none⟩ := by
  decide

/-- C5: in Encode mode, for every name table, field name and index `i`,
`visit_type_enum` produces an error of its own, without calling the backend,
iff `i < 0` or `i ≥ N`; that error is "invalid parameter" carrying the field
name (`"null"` when absent).  When `0 ≤ i < N` the backend's `type_str` is
called exactly once, with the field name and the name at `i`, the outcome is
the error that call reports, and the index is unchanged. -/
theorem enum_encode (v : Visitor σ) (r : Run σ) (name : Option String) (i : Int)
    (strings : List String) (enum_str : Option String)
    (hmode : v.type = VisitorType.VISITOR_OUTPUT) :
    ((i < 0 ∨ i ≥ strings.length) →
      visit_type_enum v r name i (some strings) enum_str
        = Outcome.ret ⟨r, i, some ⟨QERR_INVALID_PARAMETER, [name.getD "null"]⟩⟩) ∧
    ((0 ≤ i ∧ i < strings.length) →
      ∃ s, strings.get? i.toNat = some s ∧
        visit_type_enum v r name i (some strings) enum_str
          = Outcome.ret ⟨r.step (Call.type_str name (some s)) (v.type_str r.st name (some s)).1,
              i, (v.type_str r.st name (some s)).2.2⟩) ∧
    ((∃ res, visit_type_enum v r name i (some strings) enum_str = Outcome.ret res
        ∧ res.run.calls = r.calls ∧ res.errp ≠ none) ↔ (i < 0 ∨ i ≥ strings.length)) := by
  have hne : v.type ≠ VisitorType.VISITOR_INPUT := by rw [hmode]; decide
  have hout : (i < 0 ∨ i ≥ strings.length) →
      visit_type_enum v r name i (some strings) enum_str
        = Outcome.ret ⟨r, i, some ⟨QERR_INVALID_PARAMETER, [name.getD "null"]⟩⟩ := by
    intro h
    have h2 : i < 0 ∨ i ≥ (strings.length : Int) + 1 - 1 := by omega
    simp only [visit_type_enum, hmode, output_type_enum, error_setg]
    rw [if_pos trivial, if_pos h2, if_neg (by decide)]
  have hin : (0 ≤ i ∧ i < strings.length) →
      ∃ s, strings.get? i.toNat = some s ∧
        visit_type_enum v r name i (some strings) enum_str
          = Outcome.ret ⟨r.step (Call.type_str name (some s)) (v.type_str r.st name (some s)).1,
              i, (v.type_str r.st name (some s)).2.2⟩ := by
    intro h
    have hlt : i.toNat < strings.length := by omega
    have h2 : ¬ (i < 0 ∨ i ≥ (strings.length : Int) + 1 - 1) := by omega
    refine ⟨strings.get ⟨i.toNat, hlt⟩, List.get?_eq_get hlt, ?_⟩
    simp only [visit_type_enum, hmode, output_type_enum]
    rw [if_pos trivial, if_neg h2, List.get?_eq_get hlt,
      visit_type_str_forward v r name _ hne, if_neg (by decide)]
  refine ⟨hout, hin, ?_, ?_⟩
  · rintro ⟨res, hres, hcalls, -⟩
    by_contra hcon
    obtain ⟨s, -, hs⟩ := hin (by omega)
    rw [hs] at hres
    injection hres with hres
    rw [← hres] at hcalls
    simp [Run.step] at hcalls
  · intro h
    exact ⟨_, hout h, rfl, by simp⟩

/-- Witness of C5: the table `["auto", "manual"]` and index 0: the backend
receives `"auto"`, once, and no error is produced. -/
theorem enum_encode_auto :
    visit_type_enum recording_visitor ⟨none, []⟩ (some "mode") 0
        (some ["auto", "manual"]) none
      = Outcome.ret ⟨⟨none, [Call.type_str (some "mode") (some "auto")]⟩, 0, none⟩ := by
  obtain ⟨s, hs, h⟩ :=
    (enum_encode recording_visitor ⟨none, []⟩ (some "mode") 0 ["auto", "manual"] none rfl).2.1
      (by decide)
  have hauto : s = "auto" := by simpa using hs.symm
  subst hauto
  exact h

/-- C6: for every name table and every string `s` equal to no name of it,
`visit_type_enum` in Decode mode on a backend whose `type_str` succeeds with
`s` produces the error "invalid parameter" whose detail is `s`, and the index
holds the same value after the call as before. -/
theorem enum_decode_unknown (v : Visitor σ) (r : Run σ) (name : Option String)
    (obj : Int) (strings : List String) (enum_str : Option String) (s : String) (st : σ)
    (hmode : v.type = VisitorType.VISITOR_INPUT)
    (hcall : v.type_str r.st name enum_str = (st, some s, none))
    (habsent : s ∉ strings) :
    visit_type_enum v r name obj (some strings) enum_str
      = Outcome.ret ⟨r.step (Call.type_str name enum_str) st, obj,
          some ⟨QERR_INVALID_PARAMETER, [s]⟩⟩ := by
  have hscan := input_type_enum_scan_absent s strings 0
    (fun x hx hxs => habsent (hxs ▸ hx))
  rw [Nat.zero_add] at hscan
  have hend : strings.get? strings.length = none := List.get?_eq_none.mpr (Nat.le_refl _)
  simp only [visit_type_enum, hmode, if_true, input_type_enum,
    visit_type_str_decoded v r name enum_str st s hmode hcall, hscan, hend, error_setg]

/-- Witness of C6: the table `["auto", "manual"]` and the input `"bogus"`
give the error with detail `"bogus"`; the index keeps its value 7. -/
theorem enum_decode_unknown_bogus :
    visit_type_enum (fixed_visitor VisitorType.VISITOR_INPUT 0 (some "bogus") none) fresh
        (some "mode") 7 (some ["auto", "manual"]) none
      = Outcome.ret ⟨fresh.step (Call.type_str (some "mode") none) (), 7,
          some ⟨QERR_INVALID_PARAMETER, ["bogus"]⟩⟩ :=
  enum_decode_unknown (fixed_visitor VisitorType.VISITOR_INPUT 0 (some "bogus") none) fresh
    (some "mode") 7 ["auto", "manual"] none "bogus" () rfl rfl (by decide)

end EnumClaims

section Dispatch

variable {σ : Type}

/-- C7, as amended: on a backend without the optional-field capability,
`visit_optional` calls no backend operation and returns the value the caller
placed in the present flag: `true` when the caller placed `true` there. -/
theorem optional_fallback (v : Visitor σ) (r : Run σ) (name : Option String)
    (present : Bool) (hslot : v.optional = none) :
    visit_optional v r name present = ⟨r, present, none⟩
      ∧ (present = true → (visit_optional v r name present).obj = true) := by
  have h : visit_optional v r name present = ⟨r, present, none⟩ := by
    simp [visit_optional, hslot]
  refine ⟨h, fun hp => ?_⟩
  rw [h]
  exact hp

/-- Witness of C7 as amended: the flag set to `true` comes back `true`. -/
theorem optional_fallback_true :
    visit_optional (fixed_visitor VisitorType.VISITOR_INPUT 0 none none) fresh
        (some "limit") true = ⟨fresh, true, none⟩
      ∧ (true = true →
        (visit_optional (fixed_visitor VisitorType.VISITOR_INPUT 0 none none) fresh
          (some "limit") true).obj = true) :=
  optional_fallback (fixed_visitor VisitorType.VISITOR_INPUT 0 none none) fresh
    (some "limit") true rfl

/-- Counterexample to C7 as stated: a backend without the optional-field
capability and a present flag the caller set to `false`: `visit_optional`
does not return `true`. -/
theorem optional_fallback_false :
    (fixed_visitor VisitorType.VISITOR_INPUT 0 none none).optional = none ∧
    (visit_optional (fixed_visitor VisitorType.VISITOR_INPUT 0 none none) fresh
        (some "limit") false).obj ≠ true :=
  ⟨rfl, by decide⟩

/-- C9: when the backend primitive reports an error `e`, the outcome of the
core is `e` itself and the caller's output is unchanged: for the narrow
integer accessors whatever wide value the backend left, in or out of range;
for `visit_type_enum` in Decode mode when `type_str` reports `e` and no
string, whatever the name table. -/
theorem backend_error_forwarded (v : Visitor σ) (r : Run σ) (name : Option String)
    (e : Error) :
    (∀ (W : UWidth) (obj wide : Nat) (st : σ), W.range obj →
      v.type_uint64 r.st name obj = (st, wide, some e) →
      (visit_type_uintW W v r name obj).errp = some e
        ∧ (visit_type_uintW W v r name obj).obj = obj) ∧
    (∀ (W : SWidth) (obj wide : Int) (st : σ), W.range obj →
      v.type_int64 r.st name obj = (st, wide, some e) →
      (visit_type_intW W v r name obj).errp = some e
        ∧ (visit_type_intW W v r name obj).obj = obj) ∧
    (∀ (obj : Int) (strings : List String) (enum_str : Option String) (st : σ),
      v.type = VisitorType.VISITOR_INPUT →
      v.type_str r.st name enum_str = (st, none, some e) →
      visit_type_enum v r name obj (some strings) enum_str
        = Outcome.ret ⟨r.step (Call.type_str name enum_str) st, obj, some e⟩) := by
  refine ⟨?_, ?_, ?_⟩
  · intro W obj wide st hobj hcall
    rw [visit_type_uintW_error W v r name obj wide st e hcall]
    exact ⟨rfl, uwidth_cast W obj hobj⟩
  · intro W obj wide st hobj hcall
    rw [visit_type_intW_error W v r name obj wide st e hcall]
    exact ⟨rfl, swidth_cast W obj hobj⟩
  · intro obj strings enum_str st hmode hcall
    simp only [visit_type_enum, hmode, if_true, input_type_enum,
      visit_type_str_failed v r name enum_str st e hmode hcall, error_propagate]

/-- Witness of C9: an unsigned-8 field holding 7 and a backend that reports
the error `busy` while leaving the out-of-range wide value 300: the outcome
is `busy`, not "invalid parameter value", and the field still holds 7. -/
theorem backend_error_forwarded_uint8 :
    (visit_type_uintW UWidth.uint8
        (fixed_visitor VisitorType.VISITOR_INPUT 300 none (some ⟨"busy", []⟩))
        fresh (some "count") 7).errp = some ⟨"busy", []⟩
      ∧ (visit_type_uintW UWidth.uint8
        (fixed_visitor VisitorType.VISITOR_INPUT 300 none (some ⟨"busy", []⟩))
        fresh (some "count") 7).obj = 7 :=
  (backend_error_forwarded (fixed_visitor VisitorType.VISITOR_INPUT 300 none (some ⟨"busy", []⟩))
    fresh (some "count") ⟨"busy", []⟩).1 UWidth.uint8 7 300 () (by decide) rfl

/-- C10: `visit_type_str` and `visit_type_any`, given a non-null output
slot, abort iff the mode is Decode and the backend's outcome is not exactly
one of an error and a value.  Hence a normal return in Decode mode carries
exactly one of the two, and in the other modes the call returns normally
with the backend's outcome, whatever it is. -/
theorem str_any_exactly_one (v : Visitor σ) (r : Run σ) (name : Option String) :
    (∀ (o : Option String),
      ((visit_type_str v r name (some o)).aborts
        ↔ (v.type = VisitorType.VISITOR_INPUT
            ∧ ¬ exactly_one (v.type_str r.st name o).2.2 (v.type_str r.st name o).2.1))
      ∧ (v.type = VisitorType.VISITOR_INPUT →
          ∀ res, visit_type_str v r name (some o) = Outcome.ret res →
            exactly_one res.errp res.obj)
      ∧ (v.type ≠ VisitorType.VISITOR_INPUT →
          visit_type_str v r name (some o)
            = Outcome.ret ⟨r.step (Call.type_str name o) (v.type_str r.st name o).1,
                (v.type_str r.st name o).2.1, (v.type_str r.st name o).2.2⟩)) ∧
    (∀ (o : Ptr),
      ((visit_type_any v r name (some o)).aborts
        ↔ (v.type = VisitorType.VISITOR_INPUT
            ∧ ¬ exactly_one (v.type_any r.st name o).2.2 (v.type_any r.st name o).2.1))
      ∧ (v.type = VisitorType.VISITOR_INPUT →
          ∀ res, visit_type_any v r name (some o) = Outcome.ret res →
            exactly_one res.errp res.obj)
      ∧ (v.type ≠ VisitorType.VISITOR_INPUT →
          visit_type_any v r name (some o)
            = Outcome.ret ⟨r.step (Call.type_any name o) (v.type_any r.st name o).1,
                (v.type_any r.st name o).2.1, (v.type_any r.st name o).2.2⟩)) := by
  constructor
  · intro o
    refine ⟨?_, ?_, visit_type_str_forward v r name o⟩
    · by_cases hmode : v.type = VisitorType.VISITOR_INPUT
      · by_cases hone : exactly_one (v.type_str r.st name o).2.2 (v.type_str r.st name o).2.1
        · simp [visit_type_str, hmode, hone, (assertion_iff _ _).mpr hone, Outcome.aborts]
        · have hb := mt (assertion_iff _ _).mp hone
          simp only [visit_type_str, hmode, if_true, if_neg hb]
          simp [hone, Outcome.aborts]
      · simp [visit_type_str, hmode, Outcome.aborts]
    · intro hmode res hres
      by_cases hb : ((v.type_str r.st name o).2.2.isNone
          != (v.type_str r.st name o).2.1.isNone) = true
      · simp only [visit_type_str, hmode, if_true, if_pos hb, error_propagate] at hres
        injection hres with hres
        rw [← hres]
        exact (assertion_iff _ _).mp hb
      · simp only [visit_type_str, hmode, if_true, if_neg hb] at hres
        cases hres
  · intro o
    refine ⟨?_, ?_, visit_type_any_forward v r name o⟩
    · by_cases hmode : v.type = VisitorType.VISITOR_INPUT
      · by_cases hone : exactly_one (v.type_any r.st name o).2.2 (v.type_any r.st name o).2.1
        · simp [visit_type_any, hmode, hone, (assertion_iff _ _).mpr hone, Outcome.aborts]
        · have hb := mt (assertion_iff _ _).mp hone
          simp only [visit_type_any, hmode, if_true, if_neg hb]
          simp [hone, Outcome.aborts]
      · simp [visit_type_any, hmode, Outcome.aborts]
    · intro hmode res hres
      by_cases hb : ((v.type_any r.st name o).2.2.isNone
          != (v.type_any r.st name o).2.1.isNone) = true
      · simp only [visit_type_any, hmode, if_true, if_pos hb, error_propagate] at hres
        injection hres with hres
        rw [← hres]
        exact (assertion_iff _ _).mp hb
      · simp only [visit_type_any, hmode, if_true, if_neg hb] at hres
        cases hres

/-- Witness of C10: a Decode backend that leaves neither an error nor a
string makes `visit_type_str` abort. -/
theorem str_any_exactly_one_neither :
    (visit_type_str (fixed_visitor VisitorType.VISITOR_INPUT 0 none none) fresh (some "id")
      (some none)).aborts :=
  ((str_any_exactly_one (fixed_visitor VisitorType.VISITOR_INPUT 0 none none) fresh
    (some "id")).1 none).1.mpr ⟨rfl, by simp [exactly_one, fixed_visitor]⟩

end Dispatch

section Capabilities

variable {σ : Type}

/-- C11: on a backend whose implicit-struct slots are unset,
`visit_start_implicit_struct` and `visit_end_implicit_struct` call no
backend operation, produce no error, and leave the storage slot, the backend
state and the error slot as they were. -/
theorem implicit_struct_fallback (v : Visitor σ) (r : Run σ) (obj : Option Ptr) (size : Nat)
    (hstart : v.start_implicit_struct = none) (hend : v.end_implicit_struct = none) :
    visit_start_implicit_struct v r obj size = ⟨r, obj, none⟩
      ∧ visit_end_implicit_struct v r = r := by
  simp [visit_start_implicit_struct, visit_end_implicit_struct, hstart, hend]

/-- Witness of C11: a storage slot holding the address 64 on a backend
without the implicit-struct capability. -/
theorem implicit_struct_fallback_slot :
    visit_start_implicit_struct (fixed_visitor VisitorType.VISITOR_INPUT 0 none none) fresh
        (some (some 64)) 24 = ⟨fresh, some (some 64), none⟩
      ∧ visit_end_implicit_struct (fixed_visitor VisitorType.VISITOR_INPUT 0 none none) fresh
        = fresh :=
  implicit_struct_fallback (fixed_visitor VisitorType.VISITOR_INPUT 0 none none) fresh
    (some (some 64)) 24 rfl rfl

/-- C12: when the size-aware slot is unset `visit_type_size` has the result of
`visit_type_uint64` on the same arguments (value, error, state and logged
call); when the slot is set it makes one call, to the size-aware hook, takes
the result of that call, and does not depend on the plain `type_uint64`
primitive. -/
theorem type_size_dispatch (v : Visitor σ) (r : Run σ) (name : Option String) (obj : Nat) :
    (v.type_size = none → visit_type_size v r name obj = visit_type_uint64 v r name obj) ∧
    (∀ f, v.type_size = some f →
      visit_type_size v r name obj
          = ⟨r.step (Call.type_size name obj) (f r.st name obj).1,
              (f r.st name obj).2.1, (f r.st name obj).2.2⟩
        ∧ (visit_type_size v r name obj).run.calls = r.calls ++ [Call.type_size name obj]
        ∧ ∀ g, visit_type_size { v with type_uint64 := g } r name obj
            = visit_type_size v r name obj) := by
  constructor
  · intro h
    simp [visit_type_size, visit_type_uint64, h]
  · intro f h
    refine ⟨?_, ?_, ?_⟩
    · simp [visit_type_size, h]
    · simp [visit_type_size, h, Run.step]
    · intro g
      simp [visit_type_size, h]

/-- Witness of C12: without the size-aware slot, a size field follows the
plain unsigned 64-bit path. -/
theorem type_size_dispatch_plain :
    visit_type_size (fixed_visitor VisitorType.VISITOR_INPUT 4096 none none) fresh
        (some "size") 0
      = visit_type_uint64 (fixed_visitor VisitorType.VISITOR_INPUT 4096 none none) fresh
        (some "size") 0 :=
  (type_size_dispatch (fixed_visitor VisitorType.VISITOR_INPUT 4096 none none) fresh
    (some "size") 0).1 rfl

/-- With a node size that is large enough, a traversal returns normally, the
log grows by one `next_list` call for each slot, and the links are those of
the backend. -/
theorem traversal_links_eq (sizeof_GenericList : Nat) (v : Visitor σ) (size : Nat)
    (hsize : sizeof_GenericList ≤ size) (r : Run σ) (slots : List Ptr) :
    traversal_links sizeof_GenericList v size r slots
      = Outcome.ret (⟨(backend_links v size r.st slots).1,
            r.calls ++ slots.map (fun l => Call.next_list l size)⟩,
          (backend_links v size r.st slots).2) := by
  induction slots generalizing r with
  | nil => simp [traversal_links, backend_links]
  | cons l slots ih =>
    simp only [traversal_links, visit_next_list, ge_iff_le, if_pos hsize, ih, backend_links,
      Run.step, List.map_cons, List.append_assoc, List.singleton_append]

/-- C13: `visit_next_list` aborts iff the link slot is absent or the node
size is below `sizeof(GenericList)`, and then no backend call has been made;
otherwise it calls the backend's `next_list` once, with the same slot and
size, and returns the link the backend returned.  Hence over a traversal the
links seen by the caller are the links the backend yields, in order. -/
theorem next_list_contract (sizeof_GenericList : Nat) (v : Visitor σ) (r : Run σ)
    (list : Option Ptr) (size : Nat) :
    ((visit_next_list sizeof_GenericList v r list size).aborts
        ↔ (list = none ∨ size < sizeof_GenericList)) ∧
    ((list = none ∨ size < sizeof_GenericList) →
      visit_next_list sizeof_GenericList v r list size = Outcome.abort r.calls) ∧
    (∀ l, list = some l → sizeof_GenericList ≤ size →
      visit_next_list sizeof_GenericList v r list size
        = Outcome.ret ⟨r.step (Call.next_list l size) (v.next_list r.st l size).1,
            ((v.next_list r.st l size).2.1, (v.next_list r.st l size).2.2), none⟩) ∧
    (∀ slots, sizeof_GenericList ≤ size →
      traversal_links sizeof_GenericList v size r slots
        = Outcome.ret (⟨(backend_links v size r.st slots).1,
              r.calls ++ slots.map (fun l => Call.next_list l size)⟩,
            (backend_links v size r.st slots).2)) := by
  refine ⟨?_, ?_, ?_, ?_⟩
  · cases list with
    | none => simp [visit_next_list, Outcome.aborts]
    | some l =>
      by_cases hsize : sizeof_GenericList ≤ size
      · simp [visit_next_list, Outcome.aborts, hsize]
      · simp [visit_next_list, Outcome.aborts, hsize, Nat.lt_of_not_le hsize]
  · rintro (hnone | hsmall)
    · simp [visit_next_list, hnone]
    · cases list with
      | none => simp [visit_next_list]
      | some l => simp [visit_next_list, Nat.not_le.mpr hsmall]
  · intro l hl hsize
    simp [visit_next_list, hl, hsize]
  · intro slots hsize
    exact traversal_links_eq sizeof_GenericList v size hsize r slots

/-- Witness of C13: with `sizeof(GenericList)` taken as 16, a node size of 8
aborts before any backend call, and a node size of 24 on a slot holding the
address 64 returns the link of the backend. -/
theorem next_list_contract_sizes :
    visit_next_list 16 (fixed_visitor VisitorType.VISITOR_OUTPUT 0 none none) fresh
        (some (some 64)) 8 = Outcome.abort []
      ∧ visit_next_list 16 (fixed_visitor VisitorType.VISITOR_OUTPUT 0 none none) fresh
        (some (some 64)) 24
        = Outcome.ret ⟨fresh.step (Call.next_list (some 64) 24) (), (some 64, none), none⟩ :=
  ⟨(next_list_contract 16 (fixed_visitor VisitorType.VISITOR_OUTPUT 0 none none) fresh
      (some (some 64)) 8).2.1 (Or.inr (by decide)),
    (next_list_contract 16 (fixed_visitor VisitorType.VISITOR_OUTPUT 0 none none) fresh
      (some (some 64)) 24).2.2.1 (some 64) rfl (by decide)⟩

/-- C14: `visit_start_struct` aborts iff a storage slot is supplied, the mode
is Decode, and after the backend's `start_struct` it is not the case that
exactly one of "an error was produced" and "the slot is populated" holds; the
abort comes after the backend call.  In every other case it returns normally
with what the backend left in the slot and the backend's error unchanged. -/
theorem start_struct_contract (v : Visitor σ) (r : Run σ) (name : Option String)
    (obj : Option Ptr) (size : Nat) :
    ((visit_start_struct v r name obj size).aborts
        ↔ (obj ≠ none ∧ v.type = VisitorType.VISITOR_INPUT
            ∧ ¬ exactly_one (v.start_struct r.st name obj size).2.2
                (v.start_struct r.st name obj size).2.1)) ∧
    ((obj ≠ none ∧ v.type = VisitorType.VISITOR_INPUT
        ∧ ¬ exactly_one (v.start_struct r.st name obj size).2.2
            (v.start_struct r.st name obj size).2.1) →
      visit_start_struct v r name obj size
        = Outcome.abort (r.calls ++ [Call.start_struct name obj size])) ∧
    (¬ (obj ≠ none ∧ v.type = VisitorType.VISITOR_INPUT
        ∧ ¬ exactly_one (v.start_struct r.st name obj size).2.2
            (v.start_struct r.st name obj size).2.1) →
      visit_start_struct v r name obj size
        = Outcome.ret ⟨r.step (Call.start_struct name obj size)
              (v.start_struct r.st name obj size).1,
            obj.map (fun _ => (v.start_struct r.st name obj size).2.1),
            (v.start_struct r.st name obj size).2.2⟩) := by
  have hiff := assertion_iff (v.start_struct r.st name obj size).2.2
    (v.start_struct r.st name obj size).2.1
  cases obj with
  | none => simp [visit_start_struct, Outcome.aborts, error_propagate]
  | some o =>
    by_cases hmode : v.type = VisitorType.VISITOR_INPUT
    · by_cases hone : exactly_one (v.start_struct r.st name (some o) size).2.2
          (v.start_struct r.st name (some o) size).2.1
      · have hb := hiff.mpr hone
        simp only [visit_start_struct, hmode, if_true, if_pos hb]
        simp [Outcome.aborts, hone, error_propagate]
      · have hb := mt hiff.mp hone
        simp only [visit_start_struct, hmode, if_true, if_neg hb]
        simp [Outcome.aborts, hone, Run.step]
    · simp [visit_start_struct, hmode, Outcome.aborts, error_propagate]

/-- Witness of C14: a Decode backend that reports no error and leaves the
supplied slot empty makes `visit_start_struct` abort, after the call. -/
theorem start_struct_contract_empty_slot :
    visit_start_struct (fixed_visitor VisitorType.VISITOR_INPUT 0 none none) fresh
        (some "cfg") (some none) 32
      = Outcome.abort ([] ++ [Call.start_struct (some "cfg") (some none) 32]) :=
  (start_struct_contract (fixed_visitor VisitorType.VISITOR_INPUT 0 none none) fresh
    (some "cfg") (some none) 32).2.1
    ⟨by decide, rfl, by simp [exactly_one, fixed_visitor]⟩

end Capabilities

section Behaviour

variable {σ : Type}

/-- C15: every fixed-width accessor makes exactly one backend call per
invocation, whatever the mode and the input: `visit_type_int` and the signed
accessors apply the `type_int64` slot, the unsigned accessors the
`type_uint64` slot, once, to the entry state, the field name unchanged and
the widening of the caller's value; the run they leave is the run after
that one application.  The 64-bit accessors apply no range check: the
value, the error and the state are those the backend leaves. -/
theorem fixed_width_single_call (v : Visitor σ) (r : Run σ) (name : Option String) :
    (∀ (obj : Int),
      visit_type_int v r name obj
        = ⟨r.step (Call.type_int64 name obj) (v.type_int64 r.st name obj).1,
            (v.type_int64 r.st name obj).2.1, (v.type_int64 r.st name obj).2.2⟩
      ∧ (visit_type_int v r name obj).run.calls = r.calls ++ [Call.type_int64 name obj]) ∧
    (∀ (obj : Int),
      visit_type_int64 v r name obj
        = ⟨r.step (Call.type_int64 name obj) (v.type_int64 r.st name obj).1,
            (v.type_int64 r.st name obj).2.1, (v.type_int64 r.st name obj).2.2⟩
      ∧ (visit_type_int64 v r name obj).run.calls = r.calls ++ [Call.type_int64 name obj]) ∧
    (∀ (obj : Nat),
      visit_type_uint64 v r name obj
        = ⟨r.step (Call.type_uint64 name obj) (v.type_uint64 r.st name obj).1,
            (v.type_uint64 r.st name obj).2.1, (v.type_uint64 r.st name obj).2.2⟩
      ∧ (visit_type_uint64 v r name obj).run.calls = r.calls ++ [Call.type_uint64 name obj]) ∧
    (∀ (W : SWidth) (obj : Int),
      (visit_type_intW W v r name obj).run
          = r.step (Call.type_int64 name obj) (v.type_int64 r.st name obj).1
        ∧ (visit_type_intW W v r name obj).run.calls
          = r.calls ++ [Call.type_int64 name obj]) ∧
    (∀ (W : UWidth) (obj : Nat),
      (visit_type_uintW W v r name obj).run
          = r.step (Call.type_uint64 name obj) (v.type_uint64 r.st name obj).1
        ∧ (visit_type_uintW W v r name obj).run.calls
          = r.calls ++ [Call.type_uint64 name obj]) :=
  ⟨fun _ => ⟨rfl, rfl⟩, fun _ => ⟨rfl, rfl⟩, fun _ => ⟨rfl, rfl⟩,
    fun W obj => ⟨visit_type_intW_run W v r name obj, visit_type_intW_calls W v r name obj⟩,
    fun W obj => ⟨visit_type_uintW_run W v r name obj, visit_type_uintW_calls W v r name obj⟩⟩

/-- Witness of C15: the extreme 64-bit values pass unchecked, in one call
each; and an unsigned-8 accessor on the recording backend leaves the
backend in the state of having been handed the value, once. -/
theorem fixed_width_single_call_extremes :
    visit_type_int64 (fixed_visitor VisitorType.VISITOR_INPUT (-9223372036854775808) none none)
        fresh (some "offset") 0
      = ⟨fresh.step (Call.type_int64 (some "offset") 0) (), -9223372036854775808, none⟩
    ∧ visit_type_uint64 (fixed_visitor VisitorType.VISITOR_INPUT 18446744073709551615 none none)
        fresh (some "mask") 0
      = ⟨fresh.step (Call.type_uint64 (some "mask") 0) (), 18446744073709551615, none⟩
    ∧ (visit_type_uintW UWidth.uint8 recording_visitor ⟨none, []⟩ (some "level") 200).run
      = ⟨some 200, [Call.type_uint64 (some "level") 200]⟩ :=
  ⟨((fixed_width_single_call
      (fixed_visitor VisitorType.VISITOR_INPUT (-9223372036854775808) none none)
      fresh (some "offset")).2.1 0).1,
    ((fixed_width_single_call
      (fixed_visitor VisitorType.VISITOR_INPUT 18446744073709551615 none none)
      fresh (some "mask")).2.2.1 0).1,
    ((fixed_width_single_call recording_visitor ⟨none, []⟩ (some "level")).2.2.2.2
      UWidth.uint8 200).1⟩

/-- A name that occurs in the table has a first position. -/
theorem exists_first_position (enum_str : String) (strings : List String)
    (h : enum_str ∈ strings) :
    ∃ j, strings.get? j = some enum_str ∧ ∀ k, k < j → strings.get? k ≠ some enum_str := by
  induction strings with
  | nil => simp at h
  | cons s rest ih =>
    by_cases hs : s = enum_str
    · exact ⟨0, by simp [hs], fun k hk => absurd hk (Nat.not_lt_zero k)⟩
    · have hrest : enum_str ∈ rest := by
        rcases List.mem_cons.mp h with h1 | h1
        · exact absurd h1.symm hs
        · exact h1
      obtain ⟨j, hj, hfirst⟩ := ih hrest
      refine ⟨j + 1, by simpa using hj, ?_⟩
      intro k hk
      cases k with
      | zero => simpa using hs
      | succ k => simpa using hfirst k (Nat.lt_of_succ_lt_succ hk)

/-- Decoding a string whose first position in the table is `j`: no error,
and the index is `j` converted to `int`. -/
theorem visit_type_enum_decoded (v : Visitor σ) (r : Run σ) (name : Option String)
    (obj : Int) (strings : List String) (enum_str : Option String) (j : Nat) (s : String)
    (st : σ) (hmode : v.type = VisitorType.VISITOR_INPUT)
    (hcall : v.type_str r.st name enum_str = (st, some s, none))
    (hj : strings.get? j = some s)
    (hfirst : ∀ k, k < j → strings.get? k ≠ some s) :
    visit_type_enum v r name obj (some strings) enum_str
      = Outcome.ret ⟨r.step (Call.type_str name enum_str) st, to_int 32 (j : Int), none⟩ := by
  have hscan := input_type_enum_scan_first s strings 0 j hj hfirst
  rw [Nat.zero_add] at hscan
  simp only [visit_type_enum, hmode, if_true, input_type_enum,
    visit_type_str_decoded v r name enum_str st s hmode hcall, hscan, hj]
  simp

/-- Decoding a string that is not in the table. -/
theorem visit_type_enum_unknown (v : Visitor σ) (r : Run σ) (name : Option String)
    (obj : Int) (strings : List String) (enum_str : Option String) (s : String) (st : σ)
    (hmode : v.type = VisitorType.VISITOR_INPUT)
    (hcall : v.type_str r.st name enum_str = (st, some s, none))
    (habsent : s ∉ strings) :
    visit_type_enum v r name obj (some strings) enum_str
      = Outcome.ret ⟨r.step (Call.type_str name enum_str) st, obj,
          some ⟨QERR_INVALID_PARAMETER, [s]⟩⟩ := by
  have hscan := input_type_enum_scan_absent s strings 0
    (fun x hx hxs => habsent (hxs ▸ hx))
  rw [Nat.zero_add] at hscan
  have hend : strings.get? strings.length = none := List.get?_eq_none.mpr (Nat.le_refl _)
  simp only [visit_type_enum, hmode, if_true, input_type_enum,
    visit_type_str_decoded v r name enum_str st s hmode hcall, hscan, hend, error_setg]

/-- C16: for every name table, repeated names included, and every string `s`
the backend's `type_str` succeeds with, `visit_type_enum` in Decode mode
sets the index to the least position holding `s` (a position an `int` can
hold) when there is one, so that a later duplicate position is never the
result; and it produces an error exactly when no position holds `s`. -/
theorem enum_decode_least_position (v : Visitor σ) (r : Run σ) (name : Option String)
    (obj : Int) (strings : List String) (enum_str : Option String) (s : String) (st : σ)
    (hmode : v.type = VisitorType.VISITOR_INPUT)
    (hcall : v.type_str r.st name enum_str = (st, some s, none)) :
    (∀ j, strings.get? j = some s → (∀ k, k < j → strings.get? k ≠ some s) →
      (j : Int) ≤ INT32_MAX →
      visit_type_enum v r name obj (some strings) enum_str
        = Outcome.ret ⟨r.step (Call.type_str name enum_str) st, (j : Int), none⟩) ∧
    (∀ i j, strings.get? i = some s → strings.get? j = some s → j < i →
      (i : Int) ≤ INT32_MAX →
      visit_type_enum v r name obj (some strings) enum_str
        ≠ Outcome.ret ⟨r.step (Call.type_str name enum_str) st, (i : Int), none⟩) ∧
    (∃ res, visit_type_enum v r name obj (some strings) enum_str = Outcome.ret res
      ∧ (res.errp ≠ none ↔ s ∉ strings)) := by
  have hcast : ∀ j : Nat, (j : Int) ≤ INT32_MAX → to_int 32 (j : Int) = j := by
    intro j hj
    exact to_int_of_range 32 j (by decide) (by norm_num; omega)
      (by simp only [INT32_MAX] at hj; norm_num; omega)
  refine ⟨?_, ?_, ?_⟩
  · intro j hj hfirst hint
    rw [visit_type_enum_decoded v r name obj strings enum_str j s st hmode hcall hj hfirst,
      hcast j hint]
  · intro i j hi hj hlt hint
    obtain ⟨m, hm, hmfirst⟩ := exists_first_position s strings (List.get?_mem hi)
    have hmj : m ≤ j := by
      by_contra hcon
      exact hmfirst j (Nat.lt_of_not_le hcon) hj
    have hmint : (m : Int) ≤ INT32_MAX := by omega
    rw [visit_type_enum_decoded v r name obj strings enum_str m s st hmode hcall hm hmfirst,
      hcast m hmint]
    intro heq
    injection heq with heq
    injection heq with _ hobj _
    omega
  · by_cases hmem : s ∈ strings
    · obtain ⟨m, hm, hmfirst⟩ := exists_first_position s strings hmem
      exact ⟨_, visit_type_enum_decoded v r name obj strings enum_str m s st hmode hcall
        hm hmfirst, by simp [hmem]⟩
    · exact ⟨_, visit_type_enum_unknown v r name obj strings enum_str s st hmode hcall hmem,
        by simp [hmem]⟩

/-- Witness of C16: in the table `["on", "off", "on"]` the name at position
2 decodes to position 0. -/
theorem enum_decode_least_position_repeated :
    visit_type_enum (fixed_visitor VisitorType.VISITOR_INPUT 0 (some "on") none) fresh
        (some "power") 7 (some ["on", "off", "on"]) none
      = Outcome.ret ⟨fresh.step (Call.type_str (some "power") none) (), ((0 : Nat) : Int), none⟩ :=
  (enum_decode_least_position (fixed_visitor VisitorType.VISITOR_INPUT 0 (some "on") none)
    fresh (some "power") 7 ["on", "off", "on"] none "on" () rfl rfl).1 0 rfl
    (fun k hk => absurd hk (Nat.not_lt_zero k)) (by decide)

/-- C17: on a visitor in Release mode `visit_type_enum` calls no backend
operation, produces no error, validates nothing (the index may lie outside
the table), and leaves the index unchanged. -/
theorem enum_release_untouched (v : Visitor σ) (r : Run σ) (name : Option String)
    (obj : Int) (strings : List String) (enum_str : Option String)
    (hmode : v.type = VisitorType.VISITOR_DEALLOC) :
    visit_type_enum v r name obj (some strings) enum_str = Outcome.ret ⟨r, obj, none⟩ := by
  simp [visit_type_enum, hmode]

/-- Witness of C17: index 5 against the two-name table in Release mode. -/
theorem enum_release_untouched_outside :
    visit_type_enum (fixed_visitor VisitorType.VISITOR_DEALLOC 0 none none) fresh
        (some "mode") 5 (some ["auto", "manual"]) none
      = Outcome.ret ⟨fresh, 5, none⟩ :=
  enum_release_untouched (fixed_visitor VisitorType.VISITOR_DEALLOC 0 none none) fresh
    (some "mode") 5 ["auto", "manual"] none rfl

/-- C18: the narrowing accessors do not consult the mode: two visitors with
the same 64-bit primitive give the same result (run, destination, error),
whatever their modes.  In particular in Encode mode a primitive that
replaces the wide value by one outside `range(W)` without reporting an error
gets the "invalid parameter value" error, and the caller's value is
unchanged. -/
theorem narrow_mode_independent (v w : Visitor σ) (r : Run σ) (name : Option String) :
    (v.type_uint64 = w.type_uint64 → ∀ (W : UWidth) (obj : Nat),
      visit_type_uintW W v r name obj = visit_type_uintW W w r name obj) ∧
    (v.type_int64 = w.type_int64 → ∀ (W : SWidth) (obj : Int),
      visit_type_intW W v r name obj = visit_type_intW W w r name obj) ∧
    (v.type = VisitorType.VISITOR_OUTPUT →
      ∀ (W : UWidth) (obj wide : Nat) (st : σ), W.range obj →
        v.type_uint64 r.st name obj = (st, wide, none) → ¬ W.range wide →
        (visit_type_uintW W v r name obj).errp
            = some ⟨QERR_INVALID_PARAMETER_VALUE, [name.getD "null", W.token]⟩
          ∧ (visit_type_uintW W v r name obj).obj = obj) ∧
    (v.type = VisitorType.VISITOR_OUTPUT →
      ∀ (W : SWidth) (obj wide : Int) (st : σ), W.range obj →
        v.type_int64 r.st name obj = (st, wide, none) → ¬ W.range wide →
        (visit_type_intW W v r name obj).errp
            = some ⟨QERR_INVALID_PARAMETER_VALUE, [name.getD "null", W.token]⟩
          ∧ (visit_type_intW W v r name obj).obj = obj) := by
  refine ⟨?_, ?_, ?_, ?_⟩
  · intro h W obj
    cases W <;>
      simp only [visit_type_uintW, visit_type_uint8, visit_type_uint16, visit_type_uint32,
        visit_type_uintN, h]
  · intro h W obj
    cases W <;>
      simp only [visit_type_intW, visit_type_int8, visit_type_int16, visit_type_int32,
        visit_type_intN, h]
  · intro _ W obj wide st hobj hcall hwide
    rw [visit_type_uintW_above W v r name obj wide st hcall hwide]
    exact ⟨rfl, uwidth_cast W obj hobj⟩
  · intro _ W obj wide st hobj hcall hwide
    rw [visit_type_intW_outside W v r name obj wide st hcall hwide]
    exact ⟨rfl, swidth_cast W obj hobj⟩

/-- Witness of C18: the same backend answers in Decode and in Encode mode
give the same result for an unsigned-16 field. -/
theorem narrow_mode_independent_uint16 :
    visit_type_uintW UWidth.uint16 (fixed_visitor VisitorType.VISITOR_INPUT 70000 none none)
        fresh (some "port") 80
      = visit_type_uintW UWidth.uint16 (fixed_visitor VisitorType.VISITOR_OUTPUT 70000 none none)
        fresh (some "port") 80 :=
  (narrow_mode_independent (fixed_visitor VisitorType.VISITOR_INPUT 70000 none none)
    (fixed_visitor VisitorType.VISITOR_OUTPUT 70000 none none) fresh (some "port")).1 rfl
    UWidth.uint16 80

end Behaviour

end QapiVisitCore
